import Mathlib

/-!
Verification of the dexscreenervotes server (src/server.js, with the variant
implementations in src/unnamed/part_000 and src/unnamed/part_001).

The embedding conventions:

* JavaScript strings are modelled as `List Char` (`jstr s` converts a Lean
  string literal).  All character-level operations (`replace` with a
  single-character global regex, `slice`, `toLowerCase`, ...) are modelled
  as structurally recursive list functions so that every definition is
  executable by the kernel.
* JavaScript numbers are modelled as exact rationals `ℚ`.  The server only
  performs comparisons, divisions by powers of ten and `toFixed`/`round`
  style digit extraction on them, which are modelled exactly on
  numerator/denominator (machine floating point rounding is not modelled;
  `NaN` inputs are outside the model).
* Timestamps (`Date.now()`) are modelled as `Int` milliseconds.
* Network and `sharp` library effects are modelled as explicit oracle
  inputs (the `Except`-valued result an `await` would produce).
-/

/-- Converts a Lean string literal to the `List Char` representation used for
JavaScript strings throughout this development. -/
def jstr (s : String) : List Char := s.data

/-- Apostrophe character (U+0027), written via its code point. -/
def apos : Char := Char.ofNat 39

-- ════════════════════════════════════════════════════
--  Generic JavaScript primitives
-- ════════════════════════════════════════════════════

/-- Digit character for `n % 10`; used to render decimal digits. -/
def digitChar (n : Nat) : Char :=
  (jstr "0123456789").getD (n % 10) '0'

/-- Fuel-driven rendering of the decimal digits of a natural number
(most significant first); structural recursion so the kernel can evaluate. -/
def natStrGo : Nat → Nat → List Char
  | 0, _ => []
  | fuel + 1, n => if n < 10 then [digitChar n] else natStrGo fuel (n / 10) ++ [digitChar (n % 10)]

/-- Decimal digit string of a natural number, e.g. `natStr 123 = jstr "123"`. -/
def natStr (n : Nat) : List Char := natStrGo (n + 1) n

/-- Decimal string of an integer (sign prepended), modelling JavaScript
`String(n)` for integral numbers. -/
def intStr (i : Int) : List Char :=
  (if i < 0 then ['-'] else []) ++ natStr i.natAbs

/-- Pads a digit string on the left with zeros up to length `k`. -/
def padZeros (s : List Char) (k : Nat) : List Char :=
  List.replicate (k - s.length) '0' ++ s

/-- Inserts a comma after every three characters of a reversed digit string;
helper for en-US thousands grouping. -/
def group3Rev : List Char → List Char
  | c1 :: c2 :: c3 :: c4 :: rest => c1 :: c2 :: c3 :: ',' :: group3Rev (c4 :: rest)
  | l => l

/-- Groups a digit string with commas every three digits from the right,
as `toLocaleString('en-US')` does: `groupDigits (jstr "1234") = jstr "1,234"`. -/
def groupDigits (s : List Char) : List Char := (group3Rev s.reverse).reverse

/-- Thousands-grouped decimal string of an integer, modelling
`n.toLocaleString()` for integral `n`. -/
def groupInt (i : Int) : List Char :=
  (if i < 0 then ['-'] else []) ++ groupDigits (natStr i.natAbs)

/-- Round-half-up of `(m / den) * 10 ^ d` (with `m, den ≥ 0`): the integer `n`
closest to `m / den * 10 ^ d`, ties to the larger, as specified for
`Number.prototype.toFixed`. -/
def halfUp (m : Nat) (den : Nat) (d : Nat) : Nat :=
  (2 * m * 10 ^ d + den) / (2 * den)

/-- Digit string (length ≥ d+1) underlying `(x / sc).toFixed(d)`. -/
def toFixedDigits (x : ℚ) (sc : Nat) (d : Nat) : List Char :=
  padZeros (natStr (halfUp x.num.natAbs (x.den * sc) d)) (d + 1)

/-- Models `(x / sc).toFixed(d)` (ECMAScript `Number.prototype.toFixed`,
round half up on the magnitude, sign prepended) computed in exact rational
arithmetic.  `sc` is a positive scale divisor (the server divides by `1e9`,
`1e6`, `1e3` before calling `toFixed`). -/
def jsToFixedDiv (x : ℚ) (sc : Nat) (d : Nat) : List Char :=
  let ds := toFixedDigits x sc d
  let ip := ds.take (ds.length - d)
  let fp := ds.drop (ds.length - d)
  (if x < 0 then ['-'] else []) ++ (if d = 0 then ip else ip ++ '.' :: fp)

/-- Models `x.toFixed(d)`. -/
def jsToFixed (x : ℚ) (d : Nat) : List Char := jsToFixedDiv x 1 d

/-- Models `x.toLocaleString('en-US', {minimumFractionDigits: 2,
maximumFractionDigits: 2})`: the two-decimal rendering of `x` with the
integer part thousands-grouped. -/
def jsToLocale2 (x : ℚ) : List Char :=
  let ds := toFixedDigits x 1 2
  let ip := ds.take (ds.length - 2)
  let fp := ds.drop (ds.length - 2)
  (if x < 0 then ['-'] else []) ++ (groupDigits ip ++ '.' :: fp)

/-- Fractional digit string of `x.toFixed(d)` (the part after the point). -/
def toFixedFrac (x : ℚ) (d : Nat) : List Char :=
  (toFixedDigits x 1 d).drop ((toFixedDigits x 1 d).length - d)

/-- Counts the leading `'0'` characters of a digit string, as the
`for (const c of s) { if (c === '0') z++; else break; }` loop does. -/
def zCount : List Char → Nat
  | [] => 0
  | c :: cs => if c = '0' then zCount cs + 1 else 0

/-- Number of characters after the last `'.'` of a string (0 if there is no
point): the number of rendered decimal places. -/
def decCount (s : List Char) : Nat :=
  if '.' ∈ s then (s.reverse.takeWhile (fun c => c != '.')).length else 0

/-- Models JavaScript `||` on an optional string operand: `undefined` and the
empty string are falsy. -/
def jsOrS (a : Option (List Char)) (b : Option (List Char)) : Option (List Char) :=
  match a with
  | some s => if s = [] then b else some s
  | none => b

/-- Defaulted form of `jsOrS`: `a || alt` for a string `alt`. -/
def jsOrSD (a : Option (List Char)) (alt : List Char) : List Char :=
  match a with
  | some s => if s = [] then alt else s
  | none => alt

/-- Models JavaScript `||` on an optional numeric operand: `undefined` and `0`
are falsy. -/
def jsNumOr (a : Option ℚ) (alt : ℚ) : ℚ :=
  match a with
  | some v => if v = 0 then alt else v
  | none => alt

/-- Models `s.toLowerCase()` (ASCII range; the server only lowercases
hexadecimal/base58 contract addresses). -/
def jsToLower (s : List Char) : List Char := s.map Char.toLower

/-- Models `s.toUpperCase()` (ASCII range). -/
def jsToUpper (s : List Char) : List Char := s.map Char.toUpper

-- ════════════════════════════════════════════════════
--  Data model (upstream market-data documents)
-- ════════════════════════════════════════════════════

/-- Base-token descriptor of a pair (`pair.baseToken`). -/
structure BaseToken where
  name : Option (List Char)
  symbol : Option (List Char)
deriving DecidableEq

/-- Liquidity object of a pair (`pair.liquidity`), with optional `usd` field. -/
structure Liquidity where
  usd : Option ℚ
deriving DecidableEq

/-- Volume object of a pair (`pair.volume`), with optional `h24` field. -/
structure Volume where
  h24 : Option ℚ
deriving DecidableEq

/-- Info object of a pair (`pair.info`), with optional `imageUrl` field. -/
structure TokenInfo where
  imageUrl : Option (List Char)
deriving DecidableEq

/-- One trading pair of the upstream market-data response.  `priceUsd` is a
decimal string upstream; it is modelled by the rational it parses to (`none`
for an absent field). -/
structure Pair where
  baseToken : BaseToken
  chainId : Option (List Char)
  priceUsd : Option ℚ
  liquidity : Option Liquidity
  volume : Option Volume
  fdv : Option ℚ
  marketCap : Option ℚ
  info : Option TokenInfo
deriving DecidableEq

/-- Upstream market-data document for one address: `pairs` may be absent or
`null` (`none`) or any list, possibly empty. -/
structure MarketDataDocument where
  pairs : Option (List Pair)
deriving DecidableEq

/-- The sort key of `bestPair`: `p.liquidity?.usd || 0` (absent liquidity or
absent/zero `usd` both give `0`). -/
def liqUsd (p : Pair) : ℚ :=
  match p.liquidity with
  | none => 0
  | some l =>
    match l.usd with
    | none => 0
    | some v => v

-- ════════════════════════════════════════════════════
--  PAIR SELECTOR (bestPair, src/server.js lines 36-39)
-- ════════════════════════════════════════════════════

/-- Inserts `x` into a list already sorted descending by `liqUsd`, before the
first element whose key is `≤` its own.  Helper for the stable descending
sort below. -/
def insertByLiq (x : Pair) : List Pair → List Pair
  | [] => [x]
  | y :: ys => if liqUsd x < liqUsd y then y :: insertByLiq x ys else x :: y :: ys

/-- Stable descending sort by `liqUsd`, modelling
`pairs.sort((a, b) => (b.liquidity?.usd || 0) - (a.liquidity?.usd || 0))`:
ECMAScript 2019 requires `Array.prototype.sort` to be stable, and with this
comparator the result is exactly the stable reordering descending by
`liquidity.usd` (first-seen first among equal keys), which this insertion
sort computes. -/
def sortByLiqDesc : List Pair → List Pair
  | [] => []
  | x :: xs => insertByLiq x (sortByLiqDesc xs)

/-- Models `bestPair(data)`: `null` when `!data?.pairs?.length`, otherwise the
first element of the sorted pairs array. -/
def bestPair (data : MarketDataDocument) : Option Pair :=
  match data.pairs with
  | none => none
  | some ps => if ps.length = 0 then none else (sortByLiqDesc ps).head?

/-- Models a call of `bestPair(data)` together with its side effect:
`Array.prototype.sort` sorts `data.pairs` in place, so after the call the
document holds the sorted array.  Returns (selected pair, document after the
call). -/
def bestPairCall (data : MarketDataDocument) : Option Pair × MarketDataDocument :=
  match data.pairs with
  | none => (none, data)
  | some ps =>
    if ps.length = 0 then (none, data)
    else ((sortByLiqDesc ps).head?, { pairs := some (sortByLiqDesc ps) })

-- Structural lemmas about the stable descending sort.

theorem length_insertByLiq (x : Pair) (l : List Pair) :
    (insertByLiq x l).length = l.length + 1 := by
  induction l with
  | nil => rfl
  | cons y ys ih =>
    simp only [insertByLiq]
    by_cases h : liqUsd x < liqUsd y
    · simp [h, ih]
    · simp [h]

theorem length_sortByLiqDesc (l : List Pair) :
    (sortByLiqDesc l).length = l.length := by
  induction l with
  | nil => rfl
  | cons x xs ih => simp [sortByLiqDesc, length_insertByLiq, ih]

/-- Head of the stable descending sort of a nonempty list: the earliest
element realising the maximal key. -/
theorem head_sortByLiqDesc (ps : List Pair) (hne : ps ≠ []) :
    ∃ i : Fin ps.length,
      (sortByLiqDesc ps).head? = some (ps.get i) ∧
      (∀ j : Fin ps.length, liqUsd (ps.get j) ≤ liqUsd (ps.get i)) ∧
      (∀ j : Fin ps.length, (j : Nat) < (i : Nat) → liqUsd (ps.get j) < liqUsd (ps.get i)) := by
  induction ps with
  | nil => exact absurd rfl hne
  | cons x xs ih =>
    cases xs with
    | nil =>
      refine ⟨⟨0, by simp⟩, ?_, ?_, ?_⟩
      · rfl
      · intro j
        have hlt := j.isLt
        simp only [List.length_singleton] at hlt
        have : (j : Nat) = 0 := by omega
        have hj : j = ⟨0, by simp⟩ := Fin.ext this
        simp [hj]
      · intro j hj
        exact absurd hj (Nat.not_lt_zero _)
    | cons y ys =>
      obtain ⟨i', hhead, hmax, hfirst⟩ := ih (by simp)
      have hne' : sortByLiqDesc (y :: ys) ≠ [] := by
        intro h
        have := length_sortByLiqDesc (y :: ys)
        rw [h] at this
        simp at this
      obtain ⟨h, t, hht⟩ : ∃ h t, sortByLiqDesc (y :: ys) = h :: t := by
        cases hsl : sortByLiqDesc (y :: ys) with
        | nil => exact absurd hsl hne'
        | cons a b => exact ⟨a, b, rfl⟩
      have hh : h = (y :: ys).get i' := by
        rw [hht] at hhead
        simpa using hhead
      by_cases hcmp : liqUsd x < liqUsd h
      · -- x sinks below the current head: the head of the result is h
        refine ⟨⟨(i' : Nat) + 1, by simp [i'.isLt]⟩, ?_, ?_, ?_⟩
        · show (insertByLiq x (sortByLiqDesc (y :: ys))).head? = _
          rw [hht]
          simp only [insertByLiq, if_pos hcmp]
          simp [hh]
        · intro j
          rcases j with ⟨jv, hjv⟩
          cases jv with
          | zero =>
            simp only [List.get]
            exact le_of_lt (by simpa [hh] using hcmp)
          | succ k =>
            have hk : k < (y :: ys).length := by simpa using hjv
            have := hmax ⟨k, hk⟩
            simpa using this
        · intro j hj
          rcases j with ⟨jv, hjv⟩
          cases jv with
          | zero => simpa [hh] using hcmp
          | succ k =>
            have hk : k < (y :: ys).length := by simpa using hjv
            have hlt : k < (i' : Nat) := by simpa using hj
            have := hfirst ⟨k, hk⟩ hlt
            simpa using this
      · -- x stays in front: it is the earliest maximal element
        refine ⟨⟨0, by simp⟩, ?_, ?_, ?_⟩
        · show (insertByLiq x (sortByLiqDesc (y :: ys))).head? = _
          rw [hht]
          simp only [insertByLiq, if_neg hcmp]
          rfl
        · intro j
          rcases j with ⟨jv, hjv⟩
          cases jv with
          | zero => simp
          | succ k =>
            have hk : k < (y :: ys).length := by simpa using hjv
            have h1 : liqUsd ((y :: ys).get ⟨k, hk⟩) ≤ liqUsd ((y :: ys).get i') := hmax ⟨k, hk⟩
            have h2 : liqUsd ((y :: ys).get i') ≤ liqUsd x := by
              rw [← hh]; exact le_of_not_lt hcmp
            simpa using le_trans h1 h2
        · intro j hj
          exact absurd hj (Nat.not_lt_zero _)

/-- C1: for every market-data document, if it has no pairs (field absent,
null, or an empty list) `bestPair` returns none; otherwise it returns the
earliest-indexed pair whose `liquidity.usd` (missing treated as 0) is maximal
among all pairs of the document. -/
theorem C1_bestPair_selects_first_max (d : MarketDataDocument) :
    ((d.pairs = none ∨ d.pairs = some []) → bestPair d = none) ∧
    (∀ ps, d.pairs = some ps → ps ≠ [] →
      ∃ i : Fin ps.length,
        bestPair d = some (ps.get i) ∧
        (∀ j : Fin ps.length, liqUsd (ps.get j) ≤ liqUsd (ps.get i)) ∧
        (∀ j : Fin ps.length, (j : Nat) < (i : Nat) → liqUsd (ps.get j) < liqUsd (ps.get i))) := by
  constructor
  · rintro (h | h) <;> simp [bestPair, h]
  · intro ps hps hne
    obtain ⟨i, hhead, hmax, hfirst⟩ := head_sortByLiqDesc ps hne
    refine ⟨i, ?_, hmax, hfirst⟩
    have hlen : ps.length ≠ 0 := by
      intro h
      exact hne (List.eq_nil_of_length_eq_zero h)
    simp [bestPair, hps, hlen, hhead]

/-- Sample document for the C1 witness: three pairs with liquidities 5, 9, 9;
the selected pair must be the one at index 1 (earliest maximal). -/
def c1Pair (q : ℚ) : Pair :=
  { baseToken := { name := none, symbol := none }
    chainId := none
    priceUsd := none
    liquidity := some { usd := some q }
    volume := none
    fdv := none
    marketCap := none
    info := none }

def c1Doc : MarketDataDocument := { pairs := some [c1Pair 5, c1Pair 9, c1Pair 9] }

def c1DocEmpty : MarketDataDocument := { pairs := some [] }

/-- Witness for C1 at a concrete document (and the empty-pairs case). -/
theorem C1_witness :
    (∃ i : Fin [c1Pair 5, c1Pair 9, c1Pair 9].length,
      bestPair c1Doc = some ([c1Pair 5, c1Pair 9, c1Pair 9].get i) ∧
      (∀ j, liqUsd ([c1Pair 5, c1Pair 9, c1Pair 9].get j) ≤
        liqUsd ([c1Pair 5, c1Pair 9, c1Pair 9].get i)) ∧
      (∀ j : Fin [c1Pair 5, c1Pair 9, c1Pair 9].length, (j : Nat) < (i : Nat) →
        liqUsd ([c1Pair 5, c1Pair 9, c1Pair 9].get j) <
          liqUsd ([c1Pair 5, c1Pair 9, c1Pair 9].get i))) ∧
    bestPair c1DocEmpty = none := by
  constructor
  · exact (C1_bestPair_selects_first_max c1Doc).2 _ rfl (by decide)
  · exact (C1_bestPair_selects_first_max c1DocEmpty).1 (Or.inr rfl)

-- ════════════════════════════════════════════════════
--  TOKEN DATA CACHE (fetchTokenData, src/server.js lines 17-34)
-- ════════════════════════════════════════════════════

/-- Cache TTL for token data: `5 * 60 * 1000` milliseconds. -/
def TOKEN_TTL : Int := 5 * 60 * 1000

/-- One entry of `tokenCache`: `{ data, ts }`. -/
structure CacheEntry where
  data : MarketDataDocument
  ts : Int
deriving DecidableEq

/-- The `tokenCache` `Map`, modelled as an insertion-ordered association
list. -/
def TCache := List (List Char × CacheEntry)

instance : DecidableEq TCache := by
  unfold TCache
  infer_instance

/-- Models `Map.prototype.get`. -/
def mapGet (m : TCache) (k : List Char) : Option CacheEntry := List.lookup k m

/-- Models `Map.prototype.set`: replaces the value in place when the key is
present, otherwise appends a new entry. -/
def mapSet : TCache → List Char → CacheEntry → TCache
  | [], k, v => [(k, v)]
  | (k0, v0) :: rest, k, v =>
    if k0 = k then (k, v) :: rest else (k0, v0) :: mapSet rest k v

/-- Failure modes of the upstream fetch: a non-2xx HTTP status
(`if (!res.ok) throw ...`), a body-parse failure (`await res.json()`
rejecting), or the fetch itself rejecting (network error / timeout). -/
inductive UpstreamError where
  | httpStatus (code : Nat)
  | parseFailure
  | networkFailure
deriving DecidableEq

/-- Outcome the upstream `fetch`+`json()` of `fetchTokenData` would produce,
provided as an oracle input to the model. -/
inductive UpResult where
  | ok (d : MarketDataDocument)
  | err (e : UpstreamError)
deriving DecidableEq

/-- Result of a `fetchTokenData` call: the value/exception it produces, how
many upstream fetches it performed, and the cache state it leaves behind. -/
structure FetchOutcome where
  result : UpResult
  upstreamCalls : Nat
  cacheAfter : TCache
deriving DecidableEq

/-- Miss/stale path of `fetchTokenData` (everything after the cache check):
one upstream fetch; on success the document is stored under `key` with the
timestamp `now` taken at entry, on failure the error propagates and the
cache is left untouched. -/
def fetchFresh (key : List Char) (now : Int) (cache : TCache) (upstream : UpResult) :
    FetchOutcome :=
  match upstream with
  | .err e => ⟨.err e, 1, cache⟩
  | .ok d => ⟨.ok d, 1, mapSet cache key ⟨d, now⟩⟩

/-- Models `fetchTokenData(ca)` as a function of the current time, the cache
state and the upstream oracle: lowercases the address, returns a fresh
cached entry without fetching, otherwise fetches. -/
def fetchTokenData (ca : List Char) (now : Int) (cache : TCache) (upstream : UpResult) :
    FetchOutcome :=
  let key := jsToLower ca
  match mapGet cache key with
  | some hit =>
    if now - hit.ts < TOKEN_TTL then ⟨.ok hit.data, 0, cache⟩
    else fetchFresh key now cache upstream
  | none => fetchFresh key now cache upstream

theorem mapGet_mapSet_self (m : TCache) (k : List Char) (v : CacheEntry) :
    mapGet (mapSet m k v) k = some v := by
  induction m with
  | nil => simp [mapGet, mapSet, List.lookup]
  | cons p rest ih =>
    obtain ⟨k0, v0⟩ := p
    by_cases h : k0 = k
    · simp [mapGet, mapSet, h, List.lookup]
    · simp only [mapSet, if_neg h]
      have hbeq : (k == k0) = false := by
        simp [beq_iff_eq]
        intro he
        exact h he.symm
      simpa [mapGet, List.lookup, hbeq] using ih

/-- C2: on a cache hit with age strictly under the TTL, `fetchTokenData`
returns the cached document, performs no upstream fetch and leaves the cache
unchanged; on a miss or a stale entry it performs exactly one upstream fetch
and, on success, returns the fetched document and overwrites the slot for the
lowercased address with it and the current timestamp. -/
theorem C2_fetchTokenData_cache (ca : List Char) (now : Int) (cache : TCache)
    (upstream : UpResult) :
    (∀ hit, mapGet cache (jsToLower ca) = some hit → now - hit.ts < TOKEN_TTL →
      fetchTokenData ca now cache upstream = ⟨.ok hit.data, 0, cache⟩) ∧
    ((mapGet cache (jsToLower ca) = none ∨
      ∃ hit, mapGet cache (jsToLower ca) = some hit ∧ TOKEN_TTL ≤ now - hit.ts) →
      (fetchTokenData ca now cache upstream).upstreamCalls = 1 ∧
      ∀ d, upstream = .ok d →
        fetchTokenData ca now cache upstream =
          ⟨.ok d, 1, mapSet cache (jsToLower ca) ⟨d, now⟩⟩ ∧
        mapGet (fetchTokenData ca now cache upstream).cacheAfter (jsToLower ca) =
          some ⟨d, now⟩) := by
  constructor
  · intro hit hhit hfresh
    simp [fetchTokenData, hhit, hfresh]
  · intro hmiss
    have hfetch : fetchTokenData ca now cache upstream =
        fetchFresh (jsToLower ca) now cache upstream := by
      rcases hmiss with h | ⟨hit, hhit, hstale⟩
      · simp [fetchTokenData, h]
      · have : ¬ (now - hit.ts < TOKEN_TTL) := not_lt.mpr hstale
        simp [fetchTokenData, hhit, this]
    constructor
    · rw [hfetch]
      cases upstream <;> simp [fetchFresh]
    · intro d hd
      subst hd
      rw [hfetch]
      exact ⟨rfl, by simp [fetchFresh, mapGet_mapSet_self]⟩

/-- C3: when the upstream fetch fails (non-2xx status, parse failure, or
network failure) and no fresh cache entry short-circuited the call,
`fetchTokenData` propagates the error and leaves the cache map unchanged; in
particular a stale-but-present entry is never returned as a fallback. -/
theorem C3_fetchTokenData_error_uncached (ca : List Char) (now : Int) (cache : TCache)
    (e : UpstreamError)
    (hnofresh : ∀ hit, mapGet cache (jsToLower ca) = some hit → TOKEN_TTL ≤ now - hit.ts) :
    fetchTokenData ca now cache (.err e) = ⟨.err e, 1, cache⟩ := by
  unfold fetchTokenData
  cases hhit : mapGet cache (jsToLower ca) with
  | none => simp [hhit, fetchFresh]
  | some hit =>
    have hstale := not_lt.mpr (hnofresh hit hhit)
    simp [hhit, hstale, fetchFresh]

-- Concrete states for the C2/C3 witnesses.

def c2Doc : MarketDataDocument := { pairs := none }

def c2DocFresh : MarketDataDocument := { pairs := some [c1Pair 7] }

def c2Cache : TCache := [(jstr "0xabc", ⟨c2DocFresh, 1000⟩)]

/-- Witness for C2: a fresh hit (age 1 ms) returns the cached document with
zero upstream calls, and a stale state (age = TTL) fetches and overwrites. -/
theorem C2_witness :
    fetchTokenData (jstr "0xAbC") 1001 c2Cache (.ok c2Doc) =
      ⟨.ok c2DocFresh, 0, c2Cache⟩ ∧
    fetchTokenData (jstr "0xAbC") (1000 + TOKEN_TTL) c2Cache (.ok c2Doc) =
      ⟨.ok c2Doc, 1, mapSet c2Cache (jstr "0xabc") ⟨c2Doc, 1000 + TOKEN_TTL⟩⟩ := by
  constructor
  · exact (C2_fetchTokenData_cache (jstr "0xAbC") 1001 c2Cache (.ok c2Doc)).1
      ⟨c2DocFresh, 1000⟩ (by decide) (by decide)
  · have h := (C2_fetchTokenData_cache (jstr "0xAbC") (1000 + TOKEN_TTL) c2Cache
      (.ok c2Doc)).2
      (Or.inr ⟨⟨c2DocFresh, 1000⟩, by decide, by decide⟩)
    exact (h.2 c2Doc rfl).1

/-- Witness for C3: with a stale entry present, an upstream failure
propagates and the stale entry survives untouched (and is not served). -/
theorem C3_witness :
    fetchTokenData (jstr "0xAbC") (1000 + TOKEN_TTL) c2Cache
      (.err (.httpStatus 500)) = ⟨.err (.httpStatus 500), 1, c2Cache⟩ := by
  exact C3_fetchTokenData_error_uncached (jstr "0xAbC") (1000 + TOKEN_TTL) c2Cache
    (.httpStatus 500) (by decide)

-- ════════════════════════════════════════════════════
--  C8: bestPair sorts the cached pairs array in place
-- ════════════════════════════════════════════════════

def c8PairLow : Pair := c1Pair 1

def c8PairHigh : Pair := c1Pair 2

/-- Document as fetched: the low-liquidity pair first. -/
def c8Doc : MarketDataDocument := { pairs := some [c8PairLow, c8PairHigh] }

/-- C8 (failing input): `bestPair` calls `Array.prototype.sort` on
`data.pairs`, which sorts the cached document's array in place.  For a
document whose pairs are not already in descending liquidity order, the
document after a `bestPair` call differs from the stored one: a second read
of the same cache entry observes a different pair order, contradicting the
claimed immutability. -/
theorem C8_bestPair_mutates_document :
    (bestPairCall c8Doc).2 ≠ c8Doc ∧
    (bestPairCall c8Doc).2.pairs = some [c8PairHigh, c8PairLow] ∧
    c8Doc.pairs = some [c8PairLow, c8PairHigh] := by
  refine ⟨by decide, by decide, rfl⟩

-- ════════════════════════════════════════════════════
--  FORMATTERS (fmtBig / fmtPrice, src/server.js lines 59-77;
--  variant fmtPrice in src/unnamed/part_001 lines 67-74)
-- ════════════════════════════════════════════════════

/-- Models `fmtPrice` from src/server.js minus its leading falsy/NaN guard
(the branch structure after `p = parseFloat(p)`): used both by `fmtPrice`
below and directly on the OG-image path, where the argument
`pair.priceUsd || '0'` is always a non-empty (truthy) string. -/
def fmtPriceCore (p : ℚ) : List Char :=
  if (1000 : ℚ) ≤ p then '$' :: jsToLocale2 p
  else if (1 : ℚ) ≤ p then '$' :: jsToFixed p 2
  else if mkRat 1 100 ≤ p then '$' :: jsToFixed p 4
  else '$' :: jsToFixed p (min (zCount (toFixedFrac p 15) + 4) 10)

/-- Models `fmtPrice(p)` of src/server.js for a numeric argument (`!p` is
`p = 0`; `NaN` is outside the model). -/
def fmtPrice (p : ℚ) : List Char :=
  if p = 0 then jstr "$0.00" else fmtPriceCore p

/-- Models the variant `fmtPrice(p)` of src/unnamed/part_001 (lines 67-74 and
431-438): identical except that every price below 0.01 is rendered with
`toFixed(8)`. -/
def fmtPriceP1 (p : ℚ) : List Char :=
  if p = 0 then jstr "$0.00"
  else if (1000 : ℚ) ≤ p then '$' :: jsToLocale2 p
  else if (1 : ℚ) ≤ p then '$' :: jsToFixed p 2
  else if mkRat 1 100 ≤ p then '$' :: jsToFixed p 4
  else '$' :: jsToFixed p 8

/-- Models `fmtBig(n)` of src/server.js for a numeric argument (`!n` is
`n = 0`). -/
def fmtBig (n : ℚ) : List Char :=
  if n = 0 then jstr "$0"
  else if (1000000000 : ℚ) ≤ n then '$' :: (jsToFixedDiv n 1000000000 2 ++ ['B'])
  else if (1000000 : ℚ) ≤ n then '$' :: (jsToFixedDiv n 1000000 2 ++ ['M'])
  else if (1000 : ℚ) ≤ n then '$' :: (jsToFixedDiv n 1000 1 ++ ['K'])
  else '$' :: jsToFixed n 0

-- Digit-string structure lemmas.

theorem digitChar_mem (n : Nat) : digitChar n ∈ jstr "0123456789" := by
  have h10 : n % 10 = 0 ∨ n % 10 = 1 ∨ n % 10 = 2 ∨ n % 10 = 3 ∨ n % 10 = 4 ∨
      n % 10 = 5 ∨ n % 10 = 6 ∨ n % 10 = 7 ∨ n % 10 = 8 ∨ n % 10 = 9 := by omega
  unfold digitChar
  rcases h10 with h | h | h | h | h | h | h | h | h | h <;> rw [h] <;> decide

theorem mem_natStrGo (fuel : Nat) : ∀ (n : Nat) (c : Char),
    c ∈ natStrGo fuel n → c ∈ jstr "0123456789" := by
  induction fuel with
  | zero => intro n c h; exact absurd h (by simp [natStrGo])
  | succ fuel ih =>
    intro n c h
    simp only [natStrGo] at h
    by_cases hn : n < 10
    · rw [if_pos hn] at h
      simp only [List.mem_singleton] at h
      rw [h]; exact digitChar_mem n
    · rw [if_neg hn] at h
      rcases List.mem_append.mp h with h1 | h1
      · exact ih _ _ h1
      · simp only [List.mem_singleton] at h1
        rw [h1]; exact digitChar_mem (n % 10)

theorem natStrGo_ne_nil (fuel n : Nat) : natStrGo (fuel + 1) n ≠ [] := by
  simp only [natStrGo]
  by_cases hn : n < 10
  · simp [hn]
  · simp [hn]

theorem natStr_ne_nil (n : Nat) : natStr n ≠ [] := natStrGo_ne_nil n n

theorem mem_natStr (n : Nat) (c : Char) (h : c ∈ natStr n) : c ∈ jstr "0123456789" :=
  mem_natStrGo (n + 1) n c h

theorem mem_padZeros (s : List Char) (k : Nat) (c : Char) (h : c ∈ padZeros s k) :
    c = '0' ∨ c ∈ s := by
  unfold padZeros at h
  rcases List.mem_append.mp h with h1 | h1
  · exact Or.inl (List.eq_of_mem_replicate h1)
  · exact Or.inr h1

theorem mem_toFixedDigits (x : ℚ) (sc d : Nat) (c : Char)
    (h : c ∈ toFixedDigits x sc d) : c ∈ jstr "0123456789" := by
  rcases mem_padZeros _ _ _ h with h1 | h1
  · rw [h1]; decide
  · exact mem_natStr _ _ h1

theorem mem_digits_ne_dot (c : Char) (h : c ∈ jstr "0123456789") : c ≠ '.' := by
  fin_cases h <;> decide

theorem length_toFixedDigits (x : ℚ) (sc d : Nat) :
    d + 1 ≤ (toFixedDigits x sc d).length := by
  simp only [toFixedDigits, padZeros, List.length_append, List.length_replicate]
  omega

theorem takeWhile_append_eq (p : Char → Bool) (l1 l2 : List Char) (a : Char)
    (h1 : ∀ c ∈ l1, p c = true) (h2 : p a = false) :
    (l1 ++ a :: l2).takeWhile p = l1 := by
  induction l1 with
  | nil => simp [List.takeWhile_cons, h2]
  | cons c cs ih =>
    have hc : p c = true := h1 c (List.mem_cons_self c cs)
    simp only [List.cons_append, List.takeWhile_cons, hc, if_true]
    rw [ih (fun d hd => h1 d (List.mem_cons_of_mem c hd))]

/-- Number of decimal places of a string of the shape `pre ++ "." ++ fp` when
`fp` contains no point. -/
theorem decCount_of_shape (pre fp : List Char) (hfp : ∀ c ∈ fp, c ≠ '.') :
    decCount (pre ++ '.' :: fp) = fp.length := by
  have hmem : '.' ∈ pre ++ '.' :: fp := by simp
  unfold decCount
  rw [if_pos hmem, List.reverse_append, List.reverse_cons]
  have hshape : (fp.reverse ++ ['.']) ++ pre.reverse = fp.reverse ++ '.' :: pre.reverse := by
    simp
  rw [hshape, takeWhile_append_eq]
  · exact fp.length_reverse
  · intro c hc
    have := hfp c (List.mem_reverse.mp hc)
    simpa using this
  · simp

theorem decCount_dollar_toFixed (x : ℚ) (sc d : Nat) (hd : d ≠ 0) :
    decCount ('$' :: jsToFixedDiv x sc d) = d := by
  have hlen := length_toFixedDigits x sc d
  simp only [jsToFixedDiv]
  rw [if_neg hd]
  have hshape :
      ('$' :: ((if x < 0 then ['-'] else []) ++
        ((toFixedDigits x sc d).take ((toFixedDigits x sc d).length - d) ++
          '.' :: (toFixedDigits x sc d).drop ((toFixedDigits x sc d).length - d)))) =
      ('$' :: ((if x < 0 then ['-'] else []) ++
        (toFixedDigits x sc d).take ((toFixedDigits x sc d).length - d))) ++
        '.' :: (toFixedDigits x sc d).drop ((toFixedDigits x sc d).length - d) := by
    simp
  rw [hshape, decCount_of_shape]
  · rw [List.length_drop]
    omega
  · intro c hc
    exact mem_digits_ne_dot c (mem_toFixedDigits x sc d c (List.mem_of_mem_drop hc))

theorem decCount_dollar_toLocale2 (x : ℚ) :
    decCount ('$' :: jsToLocale2 x) = 2 := by
  have hlen := length_toFixedDigits x 1 2
  simp only [jsToLocale2]
  have hshape :
      ('$' :: ((if x < 0 then ['-'] else []) ++
        (groupDigits ((toFixedDigits x 1 2).take ((toFixedDigits x 1 2).length - 2)) ++
          '.' :: (toFixedDigits x 1 2).drop ((toFixedDigits x 1 2).length - 2)))) =
      ('$' :: ((if x < 0 then ['-'] else []) ++
        groupDigits ((toFixedDigits x 1 2).take ((toFixedDigits x 1 2).length - 2))) ++
        '.' :: (toFixedDigits x 1 2).drop ((toFixedDigits x 1 2).length - 2)) := by
    simp
  rw [hshape, decCount_of_shape]
  · rw [List.length_drop]
    omega
  · intro c hc
    exact mem_digits_ne_dot c (mem_toFixedDigits x 1 2 c (List.mem_of_mem_drop hc))

theorem padZeros_of_ne_nil (s : List Char) (h : s ≠ []) : padZeros s 1 = s := by
  unfold padZeros
  have hlen : 1 ≤ s.length := by
    cases s with
    | nil => exact absurd rfl h
    | cons a t => simp
  have h0 : 1 - s.length = 0 := by omega
  rw [h0]
  simp

/-- Whole-dollar branch of `jsToFixed`: for a nonnegative argument,
`x.toFixed(0)` is exactly the digit string of the half-up rounding of `x`. -/
theorem jsToFixed_zero_of_nonneg (x : ℚ) (hx : 0 ≤ x) :
    jsToFixed x 0 = natStr (halfUp x.num.natAbs (x.den * 1) 0) := by
  have hneg : ¬ x < 0 := not_lt.mpr hx
  simp only [jsToFixed, jsToFixedDiv, toFixedDigits, if_pos rfl, hneg, if_false]
  rw [padZeros_of_ne_nil _ (natStr_ne_nil _), Nat.sub_zero, List.take_length]
  simp

/-- C6 (amended): the src/server.js `fmtPrice` renders with a grouped
two-decimal string at and above 1000, two decimals in [1, 1000), four
decimals in [0.01, 1), and `min(z + 4, 10)` decimals below 0.01 where `z`
counts the leading zeros of the 15-place rendering; the src/unnamed/part_001
variant instead renders every positive price below 0.01 with exactly eight
decimals. -/
theorem C6_fmtPrice_precision (p : ℚ) :
    ((1000 : ℚ) ≤ p →
      fmtPrice p = '$' :: jsToLocale2 p ∧ decCount (fmtPrice p) = 2) ∧
    ((1 : ℚ) ≤ p → p < 1000 →
      fmtPrice p = '$' :: jsToFixed p 2 ∧ decCount (fmtPrice p) = 2) ∧
    (mkRat 1 100 ≤ p → p < 1 →
      fmtPrice p = '$' :: jsToFixed p 4 ∧ decCount (fmtPrice p) = 4) ∧
    (0 < p → p < mkRat 1 100 →
      fmtPrice p = '$' :: jsToFixed p (min (zCount (toFixedFrac p 15) + 4) 10) ∧
      decCount (fmtPrice p) = min (zCount (toFixedFrac p 15) + 4) 10) ∧
    (0 < p → p < mkRat 1 100 →
      fmtPriceP1 p = '$' :: jsToFixed p 8 ∧ decCount (fmtPriceP1 p) = 8) := by
  refine ⟨?_, ?_, ?_, ?_, ?_⟩
  · intro h
    have hpos : (0 : ℚ) < p := lt_of_lt_of_le (by norm_num) h
    have heq : fmtPrice p = '$' :: jsToLocale2 p := by
      simp only [fmtPrice, fmtPriceCore, if_neg hpos.ne', if_pos h]
    exact ⟨heq, by rw [heq]; exact decCount_dollar_toLocale2 p⟩
  · intro h1 h2
    have hpos : (0 : ℚ) < p := lt_of_lt_of_le (by norm_num) h1
    have hn1000 : ¬ (1000 : ℚ) ≤ p := not_le.mpr h2
    have heq : fmtPrice p = '$' :: jsToFixed p 2 := by
      simp only [fmtPrice, fmtPriceCore, if_neg hpos.ne', if_neg hn1000, if_pos h1]
    exact ⟨heq, by rw [heq]; exact decCount_dollar_toFixed p 1 2 (by omega)⟩
  · intro h1 h2
    have hpos : (0 : ℚ) < p := lt_of_lt_of_le (by decide) h1
    have hn1 : ¬ (1 : ℚ) ≤ p := not_le.mpr h2
    have hn1000 : ¬ (1000 : ℚ) ≤ p := not_le.mpr (lt_trans h2 (by norm_num))
    have heq : fmtPrice p = '$' :: jsToFixed p 4 := by
      simp only [fmtPrice, fmtPriceCore, if_neg hpos.ne', if_neg hn1000, if_neg hn1,
        if_pos h1]
    exact ⟨heq, by rw [heq]; exact decCount_dollar_toFixed p 1 4 (by omega)⟩
  · intro h1 h2
    have hn001 : ¬ mkRat 1 100 ≤ p := not_le.mpr h2
    have hp1 : p < 1 := lt_trans h2 (by decide)
    have hn1 : ¬ (1 : ℚ) ≤ p := not_le.mpr hp1
    have hn1000 : ¬ (1000 : ℚ) ≤ p := not_le.mpr (lt_trans hp1 (by norm_num))
    have heq : fmtPrice p = '$' :: jsToFixed p (min (zCount (toFixedFrac p 15) + 4) 10) := by
      simp only [fmtPrice, fmtPriceCore, if_neg h1.ne', if_neg hn1000, if_neg hn1,
        if_neg hn001]
    refine ⟨heq, ?_⟩
    rw [heq]
    exact decCount_dollar_toFixed p 1 _ (by omega)
  · intro h1 h2
    have hn001 : ¬ mkRat 1 100 ≤ p := not_le.mpr h2
    have hp1 : p < 1 := lt_trans h2 (by decide)
    have hn1 : ¬ (1 : ℚ) ≤ p := not_le.mpr hp1
    have hn1000 : ¬ (1000 : ℚ) ≤ p := not_le.mpr (lt_trans hp1 (by norm_num))
    have heq : fmtPriceP1 p = '$' :: jsToFixed p 8 := by
      simp only [fmtPriceP1, if_neg h1.ne', if_neg hn1000, if_neg hn1, if_neg hn001]
    exact ⟨heq, by rw [heq]; exact decCount_dollar_toFixed p 1 8 (by omega)⟩

/-- Counterexample to C6 as stated: the claim's `min(z + 4, 10)` rule (which
for 0.0000001234 demands 10 decimal places) does not hold of the `fmtPrice`
cited in src/unnamed/part_001, which renders that price with 8 decimals. -/
theorem C6_counterexample :
    fmtPriceP1 (mkRat 1234 (10 ^ 10)) = jstr "$0.00000012" ∧
    decCount (fmtPriceP1 (mkRat 1234 (10 ^ 10))) = 8 ∧
    min (zCount (toFixedFrac (mkRat 1234 (10 ^ 10)) 15) + 4) 10 = 10 := by
  refine ⟨by decide, by decide, by decide⟩

/-- Witness for C6: concrete evaluations through the theorem, including the
spec's own examples `fmtPrice(0.0000001234)` and `fmtPrice(1234.5)`. -/
theorem C6_witness :
    decCount (fmtPrice (mkRat 24690 20)) = 2 ∧
    decCount (fmtPrice (mkRat 25 10)) = 2 ∧
    decCount (fmtPrice (mkRat 5 100)) = 4 ∧
    decCount (fmtPrice (mkRat 1234 (10 ^ 10))) =
      min (zCount (toFixedFrac (mkRat 1234 (10 ^ 10)) 15) + 4) 10 ∧
    decCount (fmtPriceP1 (mkRat 1234 (10 ^ 10))) = 8 ∧
    fmtPrice (mkRat 24690 20) = jstr "$1,234.50" ∧
    fmtPrice (mkRat 1234 (10 ^ 10)) = jstr "$0.0000001234" := by
  refine ⟨((C6_fmtPrice_precision (mkRat 24690 20)).1 (by decide)).2,
    ((C6_fmtPrice_precision (mkRat 25 10)).2.1 (by decide) (by decide)).2,
    ((C6_fmtPrice_precision (mkRat 5 100)).2.2.1 (by decide) (by decide)).2,
    ((C6_fmtPrice_precision (mkRat 1234 (10 ^ 10))).2.2.2.1 (by decide) (by decide)).2,
    ((C6_fmtPrice_precision (mkRat 1234 (10 ^ 10))).2.2.2.2 (by decide) (by decide)).2,
    by decide, by decide⟩

/-- C7 (amended): `fmtBig` maps 0 to `"$0"`, 1500000 to `"$1.50M"` (two
decimal places, not the claimed `"$1.5M"`), 2300000000 to `"$2.30B"`, applies
suffixes B/M/K at thresholds 1e9/1e6/1e3, and rounds to whole dollars below
1e3. -/
theorem C7_fmtBig_magnitudes :
    fmtBig 0 = jstr "$0" ∧
    fmtBig 1500000 = jstr "$1.50M" ∧
    fmtBig 2300000000 = jstr "$2.30B" ∧
    (∀ n : ℚ, (1000000000 : ℚ) ≤ n → ∃ body, fmtBig n = '$' :: (body ++ ['B'])) ∧
    (∀ n : ℚ, (1000000 : ℚ) ≤ n → n < 1000000000 →
      ∃ body, fmtBig n = '$' :: (body ++ ['M'])) ∧
    (∀ n : ℚ, (1000 : ℚ) ≤ n → n < 1000000 →
      ∃ body, fmtBig n = '$' :: (body ++ ['K'])) ∧
    (∀ n : ℚ, 0 < n → n < 1000 →
      fmtBig n = '$' :: natStr (halfUp n.num.natAbs (n.den * 1) 0)) := by
  refine ⟨by decide, by decide, by decide, ?_, ?_, ?_, ?_⟩
  · intro n h
    have hpos : (0 : ℚ) < n := lt_of_lt_of_le (by norm_num) h
    exact ⟨jsToFixedDiv n 1000000000 2, by
      simp only [fmtBig, if_neg hpos.ne', if_pos h]⟩
  · intro n h1 h2
    have hpos : (0 : ℚ) < n := lt_of_lt_of_le (by norm_num) h1
    have hn : ¬ (1000000000 : ℚ) ≤ n := not_le.mpr h2
    exact ⟨jsToFixedDiv n 1000000 2, by
      simp only [fmtBig, if_neg hpos.ne', if_neg hn, if_pos h1]⟩
  · intro n h1 h2
    have hpos : (0 : ℚ) < n := lt_of_lt_of_le (by norm_num) h1
    have hnB : ¬ (1000000000 : ℚ) ≤ n := not_le.mpr (lt_trans h2 (by norm_num))
    have hnM : ¬ (1000000 : ℚ) ≤ n := not_le.mpr h2
    exact ⟨jsToFixedDiv n 1000 1, by
      simp only [fmtBig, if_neg hpos.ne', if_neg hnB, if_neg hnM, if_pos h1]⟩
  · intro n h1 h2
    have hnB : ¬ (1000000000 : ℚ) ≤ n := not_le.mpr (lt_trans h2 (by norm_num))
    have hnM : ¬ (1000000 : ℚ) ≤ n := not_le.mpr (lt_trans h2 (by norm_num))
    have hnK : ¬ (1000 : ℚ) ≤ n := not_le.mpr h2
    simp only [fmtBig, if_neg h1.ne', if_neg hnB, if_neg hnM, if_neg hnK]
    rw [jsToFixed_zero_of_nonneg n (le_of_lt h1)]

/-- Counterexample to C7 as stated: `fmtBig` uses `toFixed(2)` in the
millions branch, so 1500000 renders as `"$1.50M"`, not the claimed
`"$1.5M"`. -/
theorem C7_counterexample : fmtBig 1500000 ≠ jstr "$1.5M" := by decide

/-- Witness for C7: the threshold clauses applied at concrete inputs. -/
theorem C7_witness :
    (∃ body, fmtBig 5000000000 = '$' :: (body ++ ['B'])) ∧
    (∃ body, fmtBig 2000000 = '$' :: (body ++ ['M'])) ∧
    (∃ body, fmtBig 1500 = '$' :: (body ++ ['K'])) ∧
    fmtBig (mkRat 9995 10) = '$' :: natStr (halfUp (mkRat 9995 10).num.natAbs
      ((mkRat 9995 10).den * 1) 0) := by
  refine ⟨C7_fmtBig_magnitudes.2.2.2.1 5000000000 (by norm_num),
    C7_fmtBig_magnitudes.2.2.2.2.1 2000000 (by norm_num) (by norm_num),
    C7_fmtBig_magnitudes.2.2.2.2.2.1 1500 (by norm_num) (by norm_num),
    C7_fmtBig_magnitudes.2.2.2.2.2.2 (mkRat 9995 10) (by decide) (by decide)⟩

-- ════════════════════════════════════════════════════
--  ESCAPING (escHtml / escXml, src/server.js lines 79-88)
-- ════════════════════════════════════════════════════

/-- Replaces every occurrence of the character `c` by the string `rep`:
the effect of one `String.prototype.replace` pass with a single-character
global regex. -/
def repChar (c : Char) (rep : List Char) : List Char → List Char
  | [] => []
  | x :: xs => (if x = c then rep else [x]) ++ repChar c rep xs

/-- Models `escHtml(s)`: the four replacement passes
`& → &amp;`, `" → &quot;`, `< → &lt;`, `> → &gt;` in source order (the
apostrophe is not escaped). -/
def escHtml (s : List Char) : List Char :=
  repChar '>' (jstr "&gt;")
    (repChar '<' (jstr "&lt;")
      (repChar '"' (jstr "&quot;")
        (repChar '&' (jstr "&amp;") s)))

/-- Models `escXml(s)`: the five replacement passes
`& → &amp;`, `< → &lt;`, `> → &gt;`, `" → &quot;`, `' → &apos;` in source
order. -/
def escXml (s : List Char) : List Char :=
  repChar apos (jstr "&apos;")
    (repChar '"' (jstr "&quot;")
      (repChar '>' (jstr "&gt;")
        (repChar '<' (jstr "&lt;")
          (repChar '&' (jstr "&amp;") s))))

/-- Character-wise entity map realised by `escHtml`. -/
def escHtmlChar (c : Char) : List Char :=
  if c = '&' then jstr "&amp;"
  else if c = '"' then jstr "&quot;"
  else if c = '<' then jstr "&lt;"
  else if c = '>' then jstr "&gt;"
  else [c]

/-- Character-wise entity map realised by `escXml`. -/
def escXmlChar (c : Char) : List Char :=
  if c = '&' then jstr "&amp;"
  else if c = '<' then jstr "&lt;"
  else if c = '>' then jstr "&gt;"
  else if c = '"' then jstr "&quot;"
  else if c = apos then jstr "&apos;"
  else [c]

/-- Applies a character-to-string map to every character and concatenates. -/
def charMap (f : Char → List Char) : List Char → List Char
  | [] => []
  | c :: cs => f c ++ charMap f cs

theorem repChar_append (c : Char) (rep l1 l2 : List Char) :
    repChar c rep (l1 ++ l2) = repChar c rep l1 ++ repChar c rep l2 := by
  induction l1 with
  | nil => rfl
  | cons x xs ih => simp [repChar, ih]

theorem escHtml_append (l1 l2 : List Char) :
    escHtml (l1 ++ l2) = escHtml l1 ++ escHtml l2 := by
  unfold escHtml
  rw [repChar_append, repChar_append, repChar_append, repChar_append]

theorem escXml_append (l1 l2 : List Char) :
    escXml (l1 ++ l2) = escXml l1 ++ escXml l2 := by
  unfold escXml
  rw [repChar_append, repChar_append, repChar_append, repChar_append, repChar_append]

theorem escHtml_single (c : Char) : escHtml [c] = escHtmlChar c := by
  by_cases h1 : c = '&'
  · subst h1; decide
  by_cases h2 : c = '"'
  · subst h2; decide
  by_cases h3 : c = '<'
  · subst h3; decide
  by_cases h4 : c = '>'
  · subst h4; decide
  simp [escHtml, escHtmlChar, repChar, h1, h2, h3, h4]

theorem escXml_single (c : Char) : escXml [c] = escXmlChar c := by
  by_cases h1 : c = '&'
  · subst h1; decide
  by_cases h2 : c = '<'
  · subst h2; decide
  by_cases h3 : c = '>'
  · subst h3; decide
  by_cases h4 : c = '"'
  · subst h4; decide
  by_cases h5 : c = apos
  · subst h5; decide
  simp [escXml, escXmlChar, repChar, h1, h2, h3, h4, h5]

theorem escHtml_eq_charMap (s : List Char) : escHtml s = charMap escHtmlChar s := by
  induction s with
  | nil => rfl
  | cons c cs ih =>
    have : (c :: cs) = [c] ++ cs := rfl
    rw [this, escHtml_append, escHtml_single, ih]
    rfl

theorem escXml_eq_charMap (s : List Char) : escXml s = charMap escXmlChar s := by
  induction s with
  | nil => rfl
  | cons c cs ih =>
    have : (c :: cs) = [c] ++ cs := rfl
    rw [this, escXml_append, escXml_single, ih]
    rfl

theorem mem_charMap (f : Char → List Char) (s : List Char) (c0 : Char)
    (h : c0 ∈ charMap f s) : ∃ c ∈ s, c0 ∈ f c := by
  induction s with
  | nil => exact absurd h (by simp [charMap])
  | cons c cs ih =>
    rcases List.mem_append.mp h with h1 | h1
    · exact ⟨c, List.mem_cons_self c cs, h1⟩
    · obtain ⟨c', hc', hmem⟩ := ih h1
      exact ⟨c', List.mem_cons_of_mem c hc', hmem⟩

theorem escXmlChar_no_specials (c c0 : Char)
    (h0 : c0 = '<' ∨ c0 = '>' ∨ c0 = '"' ∨ c0 = apos) :
    c0 ∉ escXmlChar c := by
  unfold escXmlChar
  split_ifs with h1 h2 h3 h4 h5
  · rcases h0 with rfl | rfl | rfl | rfl <;> decide
  · rcases h0 with rfl | rfl | rfl | rfl <;> decide
  · rcases h0 with rfl | rfl | rfl | rfl <;> decide
  · rcases h0 with rfl | rfl | rfl | rfl <;> decide
  · rcases h0 with rfl | rfl | rfl | rfl <;> decide
  · intro hmem
    simp only [List.mem_singleton] at hmem
    subst hmem
    rcases h0 with h | h | h | h
    exacts [h2 h, h3 h, h4 h, h5 h]

theorem escHtmlChar_no_specials (c c0 : Char)
    (h0 : c0 = '<' ∨ c0 = '>' ∨ c0 = '"') :
    c0 ∉ escHtmlChar c := by
  unfold escHtmlChar
  split_ifs with h1 h2 h3 h4
  · rcases h0 with rfl | rfl | rfl <;> decide
  · rcases h0 with rfl | rfl | rfl <;> decide
  · rcases h0 with rfl | rfl | rfl <;> decide
  · rcases h0 with rfl | rfl | rfl <;> decide
  · intro hmem
    simp only [List.mem_singleton] at hmem
    subst hmem
    rcases h0 with h | h | h
    exacts [h3 h, h4 h, h2 h]

theorem escHtmlChar_count_apos (c : Char) :
    (escHtmlChar c).count apos = List.count apos [c] := by
  unfold escHtmlChar
  split_ifs with h1 h2 h3 h4
  · rw [h1]; decide
  · rw [h2]; decide
  · rw [h3]; decide
  · rw [h4]; decide
  · rfl

theorem charMap_count_apos (s : List Char) :
    (charMap escHtmlChar s).count apos = s.count apos := by
  induction s with
  | nil => rfl
  | cons c cs ih =>
    show (escHtmlChar c ++ charMap escHtmlChar cs).count apos = List.count apos (c :: cs)
    rw [List.count_append, ih, escHtmlChar_count_apos]
    have : List.count apos (c :: cs) = List.count apos [c] + List.count apos cs := by
      simp [List.count_cons]
      omega
    omega

-- ════════════════════════════════════════════════════
--  PAGE RENDERER meta computation (catch-all route,
--  src/server.js lines 410-462)
-- ════════════════════════════════════════════════════

/-- The `CHAIN_REWARDS` lookup table (src/server.js lines 44-51). -/
def CHAIN_REWARDS : List (List Char × List Char) :=
  [(jstr "solana", jstr "SOL"), (jstr "ethereum", jstr "ETH"), (jstr "bsc", jstr "BNB"),
   (jstr "polygon", jstr "MATIC"), (jstr "arbitrum", jstr "ETH"),
   (jstr "avalanche", jstr "AVAX"), (jstr "base", jstr "ETH"),
   (jstr "optimism", jstr "ETH"), (jstr "fantom", jstr "FTM"), (jstr "cronos", jstr "CRO"),
   (jstr "sui", jstr "SUI"), (jstr "ton", jstr "TON"), (jstr "pulsechain", jstr "PLS"),
   (jstr "mantle", jstr "MNT"), (jstr "linea", jstr "LINEA"), (jstr "blast", jstr "BLAST"),
   (jstr "scroll", jstr "SCROLL"), (jstr "zksync", jstr "ZK"), (jstr "manta", jstr "MANTA"),
   (jstr "sei", jstr "SEI"), (jstr "celo", jstr "CELO"), (jstr "moonbeam", jstr "GLMR"),
   (jstr "aptos", jstr "APT"), (jstr "near", jstr "NEAR")]

/-- Models `CHAIN_REWARDS[chainId] || chainId.toUpperCase()`. -/
def chainRewardOf (chainId : List Char) : List Char :=
  match List.lookup chainId CHAIN_REWARDS with
  | some v => v
  | none => jsToUpper chainId

/-- Default icon URL pattern
`https://dd.dexscreener.com/ds-data/tokens/(chainId)/(ca).png`. -/
def defaultIconUrl (chainId ca : List Char) : List Char :=
  jstr "https://dd.dexscreener.com/ds-data/tokens/" ++ chainId ++ jstr "/" ++ ca ++ jstr ".png"

/-- Models `(pair.info && pair.info.imageUrl) || defaultIconUrl`. -/
def faviconOf (ca : List Char) (chainId : List Char) (info : Option TokenInfo) : List Char :=
  match info with
  | some i =>
    match i.imageUrl with
    | some u => if u = [] then defaultIconUrl chainId ca else u
    | none => defaultIconUrl chainId ca
  | none => defaultIconUrl chainId ca

/-- UTF-8 bytes of a character (for percent-encoding). -/
def utf8Bytes (c : Char) : List Nat :=
  let n := c.toNat
  if n < 128 then [n]
  else if n < 2048 then [192 + n / 64, 128 + n % 64]
  else if n < 65536 then [224 + n / 4096, 128 + (n / 64) % 64, 128 + n % 64]
  else [240 + n / 262144, 128 + (n / 4096) % 64, 128 + (n / 64) % 64, 128 + n % 64]

/-- Uppercase hexadecimal digit. -/
def hexDigitUp (n : Nat) : Char :=
  (jstr "0123456789ABCDEF").getD (n % 16) '0'

/-- Percent-encoding of one byte. -/
def pctByte (b : Nat) : List Char := ['%', hexDigitUp (b / 16), hexDigitUp (b % 16)]

/-- Percent-encoding of a byte sequence. -/
def pctBytes : List Nat → List Char
  | [] => []
  | b :: t => pctByte b ++ pctBytes t

/-- Characters `encodeURIComponent` leaves unescaped. -/
def uriUnreservedChar (c : Char) : Bool :=
  c.isAlphanum || c == '-' || c == '_' || c == '.' || c == '!' || c == '~' ||
    c == '*' || c == apos || c == '(' || c == ')'

/-- Models `encodeURIComponent(s)`. -/
def jsEncodeURIComponent : List Char → List Char
  | [] => []
  | c :: cs =>
    (if uriUnreservedChar c then [c] else pctBytes (utf8Bytes c)) ++ jsEncodeURIComponent cs

/-- The placeholder values the catch-all route computes (the `reps` object):
page title, OG/Twitter title and description, OG image URL, OG URL and
favicon. -/
structure MetaReps where
  pageTitle : List Char
  ogTitle : List Char
  ogDesc : List Char
  ogImage : List Char
  ogUrl : List Char
  favicon : List Char
deriving DecidableEq

/-- Models the meta values the catch-all route computes when a pair was
found (src/server.js lines 419-449): title and description are passed
through `escHtml`; the image URL, request URL and favicon are substituted
verbatim. -/
def metaForPair (origin originalUrl ca : List Char) (pair : Pair) : MetaReps :=
  let token := pair.baseToken
  let chainId := jsOrSD pair.chainId (jstr "unknown")
  let name := jsOrSD token.name (jsOrSD token.symbol (jstr "Unknown"))
  let sym := jsOrSD token.symbol (jstr "???")
  let chainSym := chainRewardOf chainId
  let mcap := fmtBig (jsNumOr pair.fdv (jsNumOr pair.marketCap 0))
  let title := name ++ jstr " ($" ++ sym ++ jstr ") — Vote to Earn " ++ chainSym
  let desc := name ++ jstr " ($" ++ sym ++ jstr ") on " ++ jsToUpper chainId ++
    jstr " • MCap " ++ mcap ++ jstr " • Vote to Earn " ++ chainSym
  { pageTitle := escHtml title
    ogTitle := escHtml title
    ogDesc := escHtml desc
    ogImage := origin ++ jstr "/og/" ++ jsEncodeURIComponent ca ++ jstr ".png"
    ogUrl := origin ++ originalUrl
    favicon := faviconOf ca chainId pair.info }

/-- C4 (amended): `escXml` realises the full five-character entity map (no
raw `< > " '` survives in its output), while `escHtml` — the function the
catch-all page renderer applies to titles and descriptions — realises only
the four-character map: `< > "` never survive raw but apostrophes pass
through unchanged. -/
theorem C4_escaping_amended (s : List Char) :
    escHtml s = charMap escHtmlChar s ∧
    escXml s = charMap escXmlChar s ∧
    '<' ∉ escXml s ∧ '>' ∉ escXml s ∧ '"' ∉ escXml s ∧ apos ∉ escXml s ∧
    '<' ∉ escHtml s ∧ '>' ∉ escHtml s ∧ '"' ∉ escHtml s ∧
    (escHtml s).count apos = s.count apos := by
  refine ⟨escHtml_eq_charMap s, escXml_eq_charMap s, ?_, ?_, ?_, ?_, ?_, ?_, ?_, ?_⟩
  · intro h
    rw [escXml_eq_charMap] at h
    obtain ⟨c, _, hmem⟩ := mem_charMap _ _ _ h
    exact escXmlChar_no_specials c _ (Or.inl rfl) hmem
  · intro h
    rw [escXml_eq_charMap] at h
    obtain ⟨c, _, hmem⟩ := mem_charMap _ _ _ h
    exact escXmlChar_no_specials c _ (Or.inr (Or.inl rfl)) hmem
  · intro h
    rw [escXml_eq_charMap] at h
    obtain ⟨c, _, hmem⟩ := mem_charMap _ _ _ h
    exact escXmlChar_no_specials c _ (Or.inr (Or.inr (Or.inl rfl))) hmem
  · intro h
    rw [escXml_eq_charMap] at h
    obtain ⟨c, _, hmem⟩ := mem_charMap _ _ _ h
    exact escXmlChar_no_specials c _ (Or.inr (Or.inr (Or.inr rfl))) hmem
  · intro h
    rw [escHtml_eq_charMap] at h
    obtain ⟨c, _, hmem⟩ := mem_charMap _ _ _ h
    exact escHtmlChar_no_specials c _ (Or.inl rfl) hmem
  · intro h
    rw [escHtml_eq_charMap] at h
    obtain ⟨c, _, hmem⟩ := mem_charMap _ _ _ h
    exact escHtmlChar_no_specials c _ (Or.inr (Or.inl rfl)) hmem
  · intro h
    rw [escHtml_eq_charMap] at h
    obtain ⟨c, _, hmem⟩ := mem_charMap _ _ _ h
    exact escHtmlChar_no_specials c _ (Or.inr (Or.inr rfl)) hmem
  · rw [escHtml_eq_charMap]
    exact charMap_count_apos s

-- Concrete pair for the C4 counterexample: a token name containing all five
-- characters and an upstream icon URL containing markup.

def c4Name : List Char := jstr "<script>&" ++ ['"'] ++ [apos]

def c4Pair : Pair :=
  { baseToken := { name := some c4Name, symbol := some (jstr "XYZ") }
    chainId := some (jstr "solana")
    priceUsd := none
    liquidity := none
    volume := none
    fdv := none
    marketCap := none
    info := some { imageUrl := some (jstr "https://cdn.example/i.png?a=1&b=<img>") } }

def c4Meta : MetaReps :=
  metaForPair (jstr "https://host.example") (jstr "/?ca=abcdefghijk")
    (jstr "abcdefghijk") c4Pair

/-- Counterexample to C4 as stated: for a token name containing
`<script>&"'` the rendered page title keeps the apostrophe raw (only four of
the five characters are entity-escaped), and the favicon URL taken from
upstream metadata is embedded with `&` and `<` completely unescaped. -/
theorem C4_counterexample :
    apos ∈ c4Meta.pageTitle ∧
    '&' ∈ c4Meta.favicon ∧ '<' ∈ c4Meta.favicon ∧
    '<' ∉ c4Meta.pageTitle ∧ '>' ∉ c4Meta.pageTitle ∧ '"' ∉ c4Meta.pageTitle := by
  refine ⟨by decide, by decide, by decide, by decide, by decide, by decide⟩

/-- Witness for C4 (amended) at the concrete malicious name. -/
theorem C4_witness :
    '<' ∉ escHtml c4Name ∧ apos ∉ escXml c4Name ∧
    (escHtml c4Name).count apos = c4Name.count apos := by
  refine ⟨(C4_escaping_amended c4Name).2.2.2.2.2.2.1, ?_, ?_⟩
  · exact (C4_escaping_amended c4Name).2.2.2.2.2.1
  · exact (C4_escaping_amended c4Name).2.2.2.2.2.2.2.2.2

-- ════════════════════════════════════════════════════
--  ADDRESS RESOLUTION (catch-all route, src/server.js lines 413-417)
-- ════════════════════════════════════════════════════

/-- Models `req.path.substring(1).replace(/\/$/, '')`: drop the leading
slash, then remove a single trailing slash if present. -/
def pathSeg (path : List Char) : List Char :=
  let s := path.drop 1
  if s.getLast? = some '/' then s.dropLast else s

/-- Models `s.trim()` (both-ends whitespace strip). -/
def trimL (s : List Char) : List Char :=
  ((s.dropWhile Char.isWhitespace).reverse.dropWhile Char.isWhitespace).reverse

/-- Models the address resolution of the catch-all route:
`let ca = req.query.ca || req.query.token || null;` and, when that is
falsy, the whole remaining path taken as one candidate segment
(`seg && seg.length > 10 && !seg.includes('/')`). -/
def resolveCa (qca qtoken : Option (List Char)) (path : List Char) : Option (List Char) :=
  match jsOrS qca (jsOrS qtoken none) with
  | some ca => some ca
  | none =>
    let seg := pathSeg path
    if seg ≠ [] ∧ 10 < seg.length ∧ seg.contains '/' = false
    then some (trimL seg) else none

/-- C9 (amended): with no `ca`/`token` query parameter, the catch-all route
resolves an address only when the entire path (minus the leading slash and
at most one trailing slash) is a single slash-free segment longer than 10
characters, in which case the address is that segment trimmed; any path
whose remainder still contains a slash — in particular every multi-segment
path such as `/a/b/\<address\>` — resolves no address, and so does any
segment of length ≤ 10. -/
theorem C9_resolve_single_segment_only (qca qtoken : Option (List Char))
    (path : List Char) (hq : jsOrS qca (jsOrS qtoken none) = none) :
    ((pathSeg path).contains '/' = true → resolveCa qca qtoken path = none) ∧
    ((pathSeg path).length ≤ 10 → resolveCa qca qtoken path = none) ∧
    (pathSeg path ≠ [] → 10 < (pathSeg path).length →
      (pathSeg path).contains '/' = false →
      resolveCa qca qtoken path = some (trimL (pathSeg path))) := by
  refine ⟨?_, ?_, ?_⟩
  · intro hslash
    have hcond : ¬ (pathSeg path ≠ [] ∧ 10 < (pathSeg path).length ∧
        (pathSeg path).contains '/' = false) := by
      rintro ⟨-, -, hfalse⟩
      rw [hslash] at hfalse
      exact absurd hfalse (by simp)
    simp only [resolveCa, hq, if_neg hcond]
  · intro hlen
    have hcond : ¬ (pathSeg path ≠ [] ∧ 10 < (pathSeg path).length ∧
        (pathSeg path).contains '/' = false) := by
      rintro ⟨-, hgt, -⟩
      omega
    simp only [resolveCa, hq, if_neg hcond]
  · intro h1 h2 h3
    simp only [resolveCa, hq, if_pos (And.intro h1 (And.intro h2 h3))]

/-- Counterexample to C9 as stated: for the multi-segment path
`/a/b/abcdefghijklmnop` the last segment is 16 characters long and
slash-free, yet the route resolves no address (the code tests the whole
remaining path for slashes, not the last segment). -/
theorem C9_counterexample :
    resolveCa none none (jstr "/a/b/abcdefghijklmnop") = none ∧
    10 < (jstr "abcdefghijklmnop").length ∧
    (jstr "abcdefghijklmnop").contains '/' = false := by
  refine ⟨by decide, by decide, by decide⟩

/-- Witness for C9 (amended) on concrete paths: a single long segment
resolves (trimmed), a multi-segment path and a short segment do not. -/
theorem C9_witness :
    resolveCa none none (jstr "/abcdefghijk") = some (trimL (pathSeg (jstr "/abcdefghijk"))) ∧
    resolveCa none none (jstr "/a/b/abcdefghijklmnop") = none ∧
    resolveCa none none (jstr "/short") = none := by
  refine ⟨(C9_resolve_single_segment_only none none (jstr "/abcdefghijk") rfl).2.2
      (by decide) (by decide) (by decide),
    (C9_resolve_single_segment_only none none (jstr "/a/b/abcdefghijklmnop") rfl).1
      (by decide),
    (C9_resolve_single_segment_only none none (jstr "/short") rfl).2.1 (by decide)⟩

-- ════════════════════════════════════════════════════
--  OG IMAGE CACHE KEY (safeName, src/server.js lines 136-142, 358-370)
-- ════════════════════════════════════════════════════

/-- Cache TTL for generated images: `5 * 60 * 1000` milliseconds. -/
def OG_TTL : Int := 5 * 60 * 1000

/-- Characters `safeName` keeps: the class `[a-zA-Z0-9_-]`. -/
def safeChar (c : Char) : Bool := c.isAlphanum || c == '_' || c == '-'

/-- Models `safeName(ca)`: every character outside `[a-zA-Z0-9_-]` is
replaced by `'_'`, then the result is capped at 60 characters. -/
def safeName (ca : List Char) : List Char :=
  (ca.map (fun c => if safeChar c then c else '_')).take 60

/-- One on-disk cache entry of the OG image cache: file contents and mtime. -/
structure OgEntry where
  bytes : List Nat
  mtime : Int
deriving DecidableEq

/-- Cache file name `safeName(ca) + '.png'` used by the `/og/:ca.png`
route. -/
def ogCacheFile (ca : List Char) : List Char := safeName ca ++ jstr ".png"

/-- Models the cache check of the `/og/:ca.png` route (lines 362-370): serve
the stored artifact when a file named `safeName(ca) + '.png'` exists with
mtime younger than the TTL. -/
def ogCacheHit (store : List (List Char × OgEntry)) (now : Int) (ca : List Char) :
    Option (List Nat) :=
  match List.lookup (ogCacheFile ca) store with
  | some e => if now - e.mtime < OG_TTL then some e.bytes else none
  | none => none

/-- C10: `safeName` is not injective — distinct addresses differing only in
characters outside `[a-zA-Z0-9_-]`, or only beyond the 60-character cap,
share a cache key — and consequently the `/og/:ca.png` route serves, as a
fresh cache hit, the artifact that was generated and stored for a different
address. -/
theorem C10_safeName_collisions :
    (jstr "a!" ≠ jstr "a?" ∧ safeName (jstr "a!") = safeName (jstr "a?")) ∧
    (List.replicate 61 'a' ++ ['b'] ≠ List.replicate 61 'a' ++ ['c'] ∧
      safeName (List.replicate 61 'a' ++ ['b']) =
        safeName (List.replicate 61 'a' ++ ['c'])) ∧
    ogCacheHit [(ogCacheFile (jstr "a!"), ⟨[7, 7, 7], 1000⟩)] 1001 (jstr "a?") =
      some [7, 7, 7] := by
  refine ⟨⟨by decide, by decide⟩, ⟨by decide, by decide⟩, by decide⟩

-- ════════════════════════════════════════════════════
--  IMAGE COMPOSER (generateOgImage, src/server.js lines 147-353)
-- ════════════════════════════════════════════════════

/-- The h24 volume key `pair.volume?.h24 || 0`. -/
def volH24 (p : Pair) : ℚ :=
  match p.volume with
  | none => 0
  | some v =>
    match v.h24 with
    | none => 0
    | some q => q

/-- Floor division of integers (quotient rounded toward minus infinity),
with the sign normalised onto the numerator; division by zero gives 0
(unreachable for the server's actual random draws). -/
def floorDiv (a b : Int) : Int :=
  if b = 0 then 0
  else if b < 0 then (-a) / (-b) else a / b

/-- Ceiling division of integers, `Math.ceil(a / b)` for exact rational
`a / b`. -/
def ceilDiv (a b : Int) : Int :=
  if b = 0 then 0
  else if b < 0 then -(a / (-b)) else -((-a) / b)

/-- Models `Math.floor(800 + r1 * 2500)` for the random draw `r1`. -/
def voteCountOf (r1 : ℚ) : Int :=
  floorDiv (800 * (r1.den : Int) + 2500 * r1.num) (r1.den : Int)

/-- Models `Math.ceil(voteCount / (0.4 + r2 * 0.52))` for the random draw
`r2` (the divisor `0.4 + 0.52·r2` equals `(40·den + 52·num) / (100·den)`). -/
def voteTotalOf (vc : Int) (r2 : ℚ) : Int :=
  ceilDiv (vc * 100 * (r2.den : Int)) (40 * (r2.den : Int) + 52 * r2.num)

/-- Models `Math.round((vc / vt) * 100)` (`Math.round(x) = ⌊x + 1/2⌋`). -/
def votePctOf (vc vt : Int) : Int := floorDiv (200 * vc + vt) (2 * vt)

/-- Decimal string of `n / 5`, exactly as ECMAScript `ToString` renders the
one-decimal values produced by `380 * votePct / 100 = 19 * votePct / 5`
(no trailing `.0`). -/
def decStrDen5 (n : Int) : List Char :=
  let m := n.natAbs
  let q := m / 5
  let r := m % 5
  (if n < 0 then ['-'] else []) ++ natStr q ++
    (if r = 0 then [] else ['.', digitChar (2 * r)])

/-- Models the interpolated `Math.min(380, 380 * votePct / 100)`. -/
def barWidthStr (pct : Int) : List Char :=
  if 100 ≤ pct then jstr "380" else decStrDen5 (19 * pct)

/-- Models the SVG scene string `generateOgImage` builds (src/server.js
lines 150-299) as a function of the pair and the two `Math.random()` draws.
The `fmtPrice(pair.priceUsd || '0')` call receives a non-empty string, which
is always truthy, so its falsy guard never fires and only `fmtPriceCore`
applies. -/
def buildSvg (pair : Pair) (r1 r2 : ℚ) : List Char :=
  let token := pair.baseToken
  let chainId := jsOrSD pair.chainId (jstr "unknown")
  let chainUp := jsToUpper chainId
  let chainSym := chainRewardOf chainId
  let name0 := jsOrSD token.name (jsOrSD token.symbol (jstr "Unknown"))
  let nameT := if 20 < name0.length then name0.take 18 ++ jstr "…" else name0
  let sym0 := jsToUpper (jsOrSD token.symbol (jstr "???"))
  let sym := if 10 < sym0.length then sym0.take 8 ++ jstr "…" else sym0
  let price := fmtPriceCore (pair.priceUsd.getD 0)
  let mcap := fmtBig (jsNumOr pair.fdv (jsNumOr pair.marketCap 0))
  let liq := fmtBig (liqUsd pair)
  let vol := fmtBig (volH24 pair)
  let vc := voteCountOf r1
  let vt := voteTotalOf vc r2
  let pct := votePctOf vc vt
  let chainBadgeW := chainUp.length * 12 + 40
  let badgeX : Int := 1160 - (chainBadgeW : Int) - 20
  let badgeTextX : Int := 1160 - (chainBadgeW : Int) / 2 - 20
  let vcStr := groupInt vc
  let vtStr := groupInt vt
  let vcX : Int := 720 + (vcStr.length : Int) * 32
  jstr (r##"<svg width="1200" height="630" xmlns="http://www.w3.org/2000/svg">
  <defs>
    <linearGradient id="bgGrad" x1="0%" y1="0%" x2="100%" y2="100%">
      <stop offset="0%" stop-color="#020203"/>
      <stop offset="50%" stop-color="#050506"/>
      <stop offset="100%" stop-color="#020203"/>
    </linearGradient>
    <linearGradient id="cardGrad" x1="0%" y1="0%" x2="100%" y2="100%">
      <stop offset="0%" stop-color="#0a0b0e"/>
      <stop offset="100%" stop-color="#060708"/>
    </linearGradient>
    <linearGradient id="greenGrad" x1="0%" y1="0%" x2="100%" y2="0%">
      <stop offset="0%" stop-color="#16a34a"/>
      <stop offset="50%" stop-color="#22c55e"/>
      <stop offset="100%" stop-color="#10b981"/>
    </linearGradient>
    <linearGradient id="progressBg" x1="0%" y1="0%" x2="100%" y2="0%">
      <stop offset="0%" stop-color="#000"/>
      <stop offset="100%" stop-color="#111"/>
    </linearGradient>
    <filter id="glow" x="-50%" y="-50%" width="200%" height="200%">
      <feGaussianBlur stdDeviation="8" result="blur"/>
      <feMerge>
        <feMergeNode in="blur"/>
        <feMergeNode in="SourceGraphic"/>
      </feMerge>
    </filter>
    <radialGradient id="orbGlow" cx="50%" cy="50%" r="50%">
      <stop offset="0%" stop-color="rgba(34,197,94,0.15)"/>
      <stop offset="100%" stop-color="rgba(34,197,94,0)"/>
    </radialGradient>
  </defs>

  <!-- Background -->
  <rect width="1200" height="630" fill="url(#bgGrad)"/>
  
  <!-- Subtle grid pattern -->
  <pattern id="grid" width="60" height="60" patternUnits="userSpaceOnUse">
    <path d="M 60 0 L 0 0 0 60" fill="none" stroke="rgba(34,197,94,0.03)" stroke-width="1"/>
  </pattern>
  <rect width="1200" height="630" fill="url(#grid)"/>
  
  <!-- Green orb glow effects -->
  <ellipse cx="200" cy="100" rx="300" ry="200" fill="url(#orbGlow)"/>
  <ellipse cx="1000" cy="500" rx="250" ry="180" fill="url(#orbGlow)"/>

  <!-- Main card -->
  <rect x="40" y="40" width="1120" height="550" rx="28" fill="url(#cardGrad)" 
        stroke="rgba(255,255,255,0.08)" stroke-width="1"/>
  
  <!-- Header bar -->
  <rect x="40" y="40" width="1120" height="70" rx="28" fill="rgba(0,0,0,0.3)"/>
  <rect x="40" y="82" width="1120" height="28" fill="url(#cardGrad)"/>
  <line x1="40" y1="110" x2="1160" y2="110" stroke="rgba(255,255,255,0.08)" stroke-width="1"/>
  
  <!-- Header text -->
  <text x="75" y="85" font-family="Arial,Helvetica,sans-serif" font-size="18" font-weight="bold" fill="white">DEXSCREENER</text>
  <text x="220" y="85" font-family="Arial,Helvetica,sans-serif" font-size="18" font-weight="bold" fill="#22c55e">VOTES</text>
  
  <!-- Chain badge in header -->
  <rect x=""##) ++
  (intStr badgeX) ++
  jstr (r##"" y="58" width=""##) ++
  (natStr chainBadgeW) ++
  jstr (r##"" height="32" rx="16" fill="rgba(34,197,94,0.12)"/>
  <text x=""##) ++
  (intStr badgeTextX) ++
  jstr (r##"" y="80" font-family="Arial,Helvetica,sans-serif" font-size="13" font-weight="bold" fill="#22c55e" text-anchor="middle">"##) ++
  (escXml chainUp) ++
  jstr (r##"</text>

  <!-- Left side: Token info -->
  
  <!-- Token icon placeholder (circle with letter) -->
  <circle cx="150" cy="250" r="70" fill="none" stroke="rgba(34,197,94,0.2)" stroke-width="2"/>
  <circle cx="150" cy="250" r="62" fill="rgba(34,197,94,0.08)"/>
  <text x="150" y="268" font-family="Arial,Helvetica,sans-serif" font-size="48" font-weight="bold" fill="rgba(34,197,94,0.7)" text-anchor="middle">"##) ++
  (escXml (sym.take 1)) ++
  jstr (r##"</text>
  
  <!-- Token name and symbol -->
  <text x="250" y="220" font-family="Arial,Helvetica,sans-serif" font-size="42" font-weight="bold" fill="white">"##) ++
  (escXml nameT) ++
  jstr (r##"</text>
  <text x="250" y="260" font-family="Arial,Helvetica,sans-serif" font-size="22" fill="rgba(255,255,255,0.5)">$"##) ++
  (escXml sym) ++
  jstr (r##"</text>
  
  <!-- Price -->
  <text x="250" y="320" font-family="Courier New,monospace" font-size="36" font-weight="bold" fill="#22c55e">"##) ++
  (escXml price) ++
  jstr (r##"</text>
  
  <!-- Stats row -->
  <rect x="75" y="360" width="180" height="70" rx="14" fill="rgba(0,0,0,0.4)" stroke="rgba(255,255,255,0.05)" stroke-width="1"/>
  <text x="165" y="395" font-family="Courier New,monospace" font-size="20" font-weight="bold" fill="white" text-anchor="middle">"##) ++
  (escXml mcap) ++
  jstr (r##"</text>
  <text x="165" y="418" font-family="Arial,Helvetica,sans-serif" font-size="11" fill="rgba(255,255,255,0.4)" text-anchor="middle">MARKET CAP</text>
  
  <rect x="270" y="360" width="180" height="70" rx="14" fill="rgba(0,0,0,0.4)" stroke="rgba(255,255,255,0.05)" stroke-width="1"/>
  <text x="360" y="395" font-family="Courier New,monospace" font-size="20" font-weight="bold" fill="white" text-anchor="middle">"##) ++
  (escXml liq) ++
  jstr (r##"</text>
  <text x="360" y="418" font-family="Arial,Helvetica,sans-serif" font-size="11" fill="rgba(255,255,255,0.4)" text-anchor="middle">LIQUIDITY</text>
  
  <rect x="465" y="360" width="180" height="70" rx="14" fill="rgba(0,0,0,0.4)" stroke="rgba(255,255,255,0.05)" stroke-width="1"/>
  <text x="555" y="395" font-family="Courier New,monospace" font-size="20" font-weight="bold" fill="#22c55e" text-anchor="middle">"##) ++
  (escXml vol) ++
  jstr (r##"</text>
  <text x="555" y="418" font-family="Arial,Helvetica,sans-serif" font-size="11" fill="rgba(255,255,255,0.4)" text-anchor="middle">24H VOLUME</text>

  <!-- Right side: Vote panel -->
  <rect x="700" y="135" width="420" height="320" rx="24" fill="rgba(0,0,0,0.5)" stroke="rgba(255,255,255,0.05)" stroke-width="1"/>
  
  <!-- Vote header -->
  <text x="720" y="175" font-family="Arial,Helvetica,sans-serif" font-size="13" font-weight="bold" fill="rgba(255,255,255,0.4)">MILESTONE PROGRESS</text>
  <text x="1100" y="175" font-family="Arial,Helvetica,sans-serif" font-size="13" font-weight="bold" fill="#22c55e" text-anchor="end">"##) ++
  (intStr pct) ++
  jstr (r##"%</text>
  
  <!-- Vote count -->
  <text x="720" y="245" font-family="Arial,Helvetica,sans-serif" font-size="56" font-weight="bold" fill="white">"##) ++
  (vcStr) ++
  jstr (r##"</text>
  <text x=""##) ++
  (intStr vcX) ++
  jstr (r##"" y="245" font-family="Arial,Helvetica,sans-serif" font-size="28" fill="rgba(255,255,255,0.15)">/"##) ++
  (vtStr) ++
  jstr (r##"</text>
  
  <!-- Progress bar -->
  <rect x="720" y="275" width="380" height="16" rx="8" fill="url(#progressBg)"/>
  <rect x="720" y="275" width=""##) ++
  (barWidthStr pct) ++
  jstr (r##"" height="16" rx="8" fill="url(#greenGrad)" filter="url(#glow)"/>
  
  <!-- Vote button -->
  <rect x="720" y="320" width="380" height="60" rx="16" fill="url(#greenGrad)"/>
  <text x="910" y="358" font-family="Arial,Helvetica,sans-serif" font-size="18" font-weight="bold" fill="black" text-anchor="middle">VOTE TO EARN "##) ++
  (escXml chainSym) ++
  jstr (r##" REWARD</text>

  <!-- Bottom branding -->
  <rect x="75" y="480" width="570" height="90" rx="18" fill="rgba(0,0,0,0.4)" stroke="rgba(255,255,255,0.05)" stroke-width="1"/>
  <text x="100" y="520" font-family="Arial,Helvetica,sans-serif" font-size="14" font-weight="bold" fill="rgba(255,255,255,0.3)">LIVE VOTES</text>
  <circle cx="180" cy="514" r="4" fill="#22c55e"/>
  <text x="100" y="550" font-family="Arial,Helvetica,sans-serif" font-size="12" fill="rgba(255,255,255,0.2)">Community members voting in real-time</text>
  
  <!-- Chart placeholder -->
  <rect x="700" y="480" width="420" height="90" rx="18" fill="rgba(0,0,0,0.4)" stroke="rgba(255,255,255,0.05)" stroke-width="1"/>
  <text x="720" y="520" font-family="Arial,Helvetica,sans-serif" font-size="14" font-weight="bold" fill="rgba(255,255,255,0.3)">LIVE CHART</text>
  <text x="720" y="550" font-family="Courier New,monospace" font-size="12" fill="rgba(255,255,255,0.2)">"##) ++
  (escXml sym) ++
  jstr (r##"/USD</text>
  
  <!-- Mini chart lines (decorative) -->
  <polyline points="850,540 880,520 910,530 940,510 970,525 1000,505 1030,515 1060,495 1090,510" 
            fill="none" stroke="#22c55e" stroke-width="2" stroke-linecap="round" stroke-linejoin="round" opacity="0.6"/>
</svg>"##)

/-- HTTP response of the icon fetch: `ok` status flag and body bytes. -/
structure HttpResp where
  ok : Bool
  body : List Nat
deriving DecidableEq

/-- Oracle for the effectful steps of `generateOgImage`: availability of the
`sharp` module, SVG rasterization, the icon fetch, and the three `sharp`
icon-processing steps (resize, circular mask composite, final overlay
composite).  Each returns the value the corresponding `await` would produce,
or the error it would throw. -/
structure SharpEnv where
  available : Bool
  rasterize : List Char → Except (List Char) (List Nat)
  fetchIcon : List Char → Except (List Char) HttpResp
  resizeIcon : List Nat → Except (List Char) (List Nat)
  circleMask : List Nat → Except (List Char) (List Nat)
  overlayComposite : List Nat → List Nat → Except (List Char) (List Nat)

/-- The `try` block of the icon-overlay sub-pipeline (src/server.js lines
305-350): the icon URL is `pair.info.imageUrl` when truthy, else the derived
default pattern — the same `||` chain as the route's favicon.  Returns
`some finalImage` when every step succeeds and the response status is ok;
`none` when any step fails (the `catch` swallows every thrown error, and a
non-ok status falls through to the end of the function). -/
def iconOverlayAttempt (env : SharpEnv) (ca : List Char) (pair : Pair)
    (pngBuffer : List Nat) : Option (List Nat) :=
  let chainId := jsOrSD pair.chainId (jstr "unknown")
  let iconUrl := faviconOf ca chainId pair.info
  match env.fetchIcon iconUrl with
  | .error _ => none
  | .ok res =>
    if res.ok then
      match env.resizeIcon res.body with
      | .error _ => none
      | .ok resized =>
        match env.circleMask resized with
        | .error _ => none
        | .ok circ =>
          match env.overlayComposite pngBuffer circ with
          | .error _ => none
          | .ok finalImg => some finalImg
    else none

/-- The artifact `generateOgImage` returns after the overlay attempt: the
composited image on success, the base `pngBuffer` otherwise. -/
def iconOverlay (env : SharpEnv) (ca : List Char) (pair : Pair)
    (pngBuffer : List Nat) : List Nat :=
  match iconOverlayAttempt env ca pair pngBuffer with
  | some finalImg => finalImg
  | none => pngBuffer

/-- Models `generateOgImage(ca, pair)` (src/server.js lines 147-353) given
the two `Math.random()` draws: throws when `sharp` is unavailable,
propagates a rasterization failure, and otherwise returns the base artifact
with the best-effort icon overlay applied. -/
def generateOgImage (env : SharpEnv) (ca : List Char) (pair : Pair) (r1 r2 : ℚ) :
    Except (List Char) (List Nat) :=
  if env.available = false then .error (jstr "Sharp not available")
  else
    match env.rasterize (buildSvg pair r1 r2) with
    | .error e => .error e
    | .ok pngBuffer => .ok (iconOverlay env ca pair pngBuffer)

/-- C5: whenever any step of the icon-overlay sub-pipeline fails (fetch
rejection or timeout, non-ok HTTP status, resize/mask/composite error —
i.e. the attempt does not fully succeed), `generateOgImage` still succeeds
and returns exactly the base rasterized artifact, byte-identical to the
no-icon composition path for the same random draws. -/
theorem C5_icon_overlay_best_effort (env : SharpEnv) (ca : List Char) (pair : Pair)
    (r1 r2 : ℚ) (png : List Nat)
    (hav : env.available = true)
    (hrast : env.rasterize (buildSvg pair r1 r2) = .ok png)
    (hfail : iconOverlayAttempt env ca pair png = none) :
    generateOgImage env ca pair r1 r2 = .ok png ∧
    iconOverlay env ca pair png = png := by
  have hio : iconOverlay env ca pair png = png := by
    simp [iconOverlay, hfail]
  refine ⟨?_, hio⟩
  simp [generateOgImage, hav, hrast, hio]

/-- Environment for the C5 witness: rasterization succeeds, the icon fetch
times out (rejects). -/
def c5Env : SharpEnv :=
  { available := true
    rasterize := fun _ => .ok [1, 2, 3]
    fetchIcon := fun _ => .error (jstr "timeout")
    resizeIcon := fun b => .ok b
    circleMask := fun b => .ok b
    overlayComposite := fun _ b => .ok b }

def c5Pair : Pair := c1Pair 5

/-- Witness for C5: with a failing icon fetch the request succeeds with the
base artifact unmodified. -/
theorem C5_witness :
    generateOgImage c5Env (jstr "0xabc") c5Pair 0 0 = .ok [1, 2, 3] ∧
    iconOverlay c5Env (jstr "0xabc") c5Pair [1, 2, 3] = [1, 2, 3] :=
  C5_icon_overlay_best_effort c5Env (jstr "0xabc") c5Pair 0 0 [1, 2, 3] rfl rfl rfl
